import Mathlib

/-!
Verification development for the GemsChatbot relay service.

The Python sources model shared state as insertion-ordered dictionaries
(`_buffer` in `app.py`, `_handoffs` in `handoff.py`).  We embed those
dictionaries as insertion-ordered association lists over `String` keys,
timestamps (`time.monotonic()` floats, `NOW()` instants) as `Int`, and
translate each operation of `app.py` / `handoff.py` into a Lean function
on that representation.
-/

namespace GemsChatbot

/-! ### Python-dict model: insertion-ordered association lists -/

/-- `d.get(k)`: first binding of key `k`, scanning in insertion order. -/
def dictLookup {α : Type} (l : List (String × α)) (k : String) : Option α :=
  match l with
  | [] => none
  | (k₁, v₁) :: rest => if k₁ = k then some v₁ else dictLookup rest k

/-- `d[k] = v`: replace the binding in place if the key is present
(keeping its position, as a Python dict does), else append at the end. -/
def dictInsert {α : Type} (l : List (String × α)) (k : String) (v : α) :
    List (String × α) :=
  match l with
  | [] => [(k, v)]
  | (k₁, v₁) :: rest =>
      if k₁ = k then (k, v) :: rest else (k₁, v₁) :: dictInsert rest k v

/-- `del d[k]` / `d.pop(k, None)`: drop every binding of `k`
(a real dict holds at most one). -/
def dictDel {α : Type} (l : List (String × α)) (k : String) : List (String × α) :=
  l.filter (fun p => decide (p.1 ≠ k))

/-- The dict invariant: each key is bound at most once. -/
def keysNodup {α : Type} (l : List (String × α)) : Prop :=
  (l.map Prod.fst).Nodup

instance {α : Type} (l : List (String × α)) : Decidable (keysNodup l) := by
  unfold keysNodup; infer_instance

/-! ### Python string helpers -/

/-- `str.strip()`: drop leading and trailing whitespace. -/
def pyStrip (s : String) : String :=
  String.mk (((s.data.dropWhile Char.isWhitespace).reverse.dropWhile
    Char.isWhitespace).reverse)

/-- `str.upper()` (ASCII letters, which is all the commands use). -/
def pyUpper (s : String) : String :=
  String.mk (s.data.map Char.toUpper)

/-! ### Buffer Store (`app.py`: `_buffer`, `webhook`, `_buffer_worker`) -/

/-- One value of the `_buffer` dict:
`{"messages": [str], "last_received": float}`. -/
structure BufferEntry where
  messages : List String
  last_received : Int
  deriving DecidableEq, Repr

/-- The `_buffer` dict: `{user_number: BufferEntry}`. -/
abbrev Buffer := List (String × BufferEntry)

/-- The buffering branch of `webhook` (`app.py`, lines 327-338): append the
fragment and refresh `last_received` if the sender already has an entry,
else create a fresh entry. -/
def enqueue (buf : Buffer) (sender text : String) (now : Int) : Buffer :=
  match dictLookup buf sender with
  | some e => dictInsert buf sender ⟨e.messages ++ [text], now⟩
  | none => dictInsert buf sender ⟨[text], now⟩

/-- A whole burst from one sender: `enqueue` once per `(fragment, time)`. -/
def enqueueAll (sender : String) (frags : List (String × Int)) (buf : Buffer) :
    Buffer :=
  frags.foldl (fun b f => enqueue b sender f.1 f.2) buf

/-- `"\n".join(data["messages"])`. -/
def joinMessages (msgs : List String) : String :=
  String.intercalate "\n" msgs

/-- The drain condition of `_buffer_worker`:
`now - data["last_received"] >= BUFFER_DELAY`. -/
def isIdle (threshold now : Int) (e : BufferEntry) : Bool :=
  decide (threshold ≤ now - e.last_received)

/-- Loop body of the scan in `_buffer_worker`: collect the ready
`(user_number, combined)` pair and remember the key for deletion. -/
def drainStep (threshold now : Int)
    (acc : List (String × String) × List String) (p : String × BufferEntry) :
    List (String × String) × List String :=
  if isIdle threshold now p.2 then
    (acc.1 ++ [(p.1, joinMessages p.2.messages)], acc.2 ++ [p.1])
  else acc

/-- The drain pass of `_buffer_worker` (`app.py`, lines 239-247): scan all
entries under the lock collecting ready pairs and expired keys, then delete
the expired keys. -/
def drain_ready (threshold now : Int) (buf : Buffer) :
    List (String × String) × Buffer :=
  let scanned := buf.foldl (drainStep threshold now) ([], [])
  (scanned.1, scanned.2.foldl dictDel buf)

/-! ### Hand-off Registry, in-memory backing (`handoff.py`) -/

/-- One value of the `_handoffs` dict:
`{"owner": str, "started_at": float, "last_activity": float}`. -/
structure HandoffRecord where
  owner : String
  started_at : Int
  last_activity : Int
  deriving DecidableEq, Repr

/-- The `_handoffs` dict: `{customer: HandoffRecord}`. -/
abbrev Handoffs := List (String × HandoffRecord)

/-- `_mem_take_over` (`handoff.py`, lines 50-57): reject when a record with
a different owner exists, otherwise overwrite with fresh timestamps. -/
def mem_take_over (owner customer : String) (now : Int) (hs : Handoffs) :
    Bool × Handoffs :=
  match dictLookup hs customer with
  | some existing =>
      if existing.owner ≠ owner then (false, hs)
      else (true, dictInsert hs customer ⟨owner, now, now⟩)
  | none => (true, dictInsert hs customer ⟨owner, now, now⟩)

/-- `_mem_release` (`handoff.py`, lines 60-62). -/
def mem_release (customer : String) (hs : Handoffs) : Handoffs :=
  dictDel hs customer

/-- `_mem_get_active_handoff`. -/
def mem_get_active_handoff (customer : String) (hs : Handoffs) :
    Option HandoffRecord :=
  dictLookup hs customer

/-- `_mem_get_owner_handoff`: first customer (in insertion order) whose
record names this owner. -/
def mem_get_owner_handoff (owner : String) : Handoffs → Option String
  | [] => none
  | (c, d) :: rest =>
      if d.owner = owner then some c else mem_get_owner_handoff owner rest

/-- `_mem_touch_activity`. -/
def mem_touch_activity (customer : String) (now : Int) (hs : Handoffs) :
    Handoffs :=
  match dictLookup hs customer with
  | some d => dictInsert hs customer { d with last_activity := now }
  | none => hs

/-- `_mem_list_active`. -/
def mem_list_active (hs : Handoffs) : List (String × String) :=
  hs.map (fun p => (p.1, p.2.owner))

/-- The expiry condition of `_mem_cleanup_expired`:
`now - data["last_activity"] >= timeout`. -/
def isExpired (timeout now : Int) (d : HandoffRecord) : Bool :=
  decide (timeout ≤ now - d.last_activity)

/-- Loop body of `_mem_cleanup_expired`: record the expired
`(customer, owner)` pair and delete the entry from the live dict. -/
def cleanupStep (timeout now : Int)
    (acc : List (String × String) × Handoffs) (p : String × HandoffRecord) :
    List (String × String) × Handoffs :=
  if isExpired timeout now p.2 then
    (acc.1 ++ [(p.1, p.2.owner)], dictDel acc.2 p.1)
  else acc

/-- `_mem_cleanup_expired` (`handoff.py`, lines 92-101): iterate over a
snapshot of the items, deleting expired entries as they are found. -/
def mem_cleanup_expired (timeout now : Int) (hs : Handoffs) :
    List (String × String) × Handoffs :=
  hs.foldl (cleanupStep timeout now) ([], hs)

/-! ### Hand-off Registry, durable (PostgreSQL) backing (`handoff.py`)

The `handoffs` table has `customer` as its unique key, so one table state is
again a `Handoffs` association list.  `_db_take_over` is two separate
statements: a `SELECT` of the current owner, then an
`INSERT ... ON CONFLICT (customer) DO UPDATE SET owner = EXCLUDED.owner,
started_at = NOW(), last_activity = NOW()`.  Each statement is atomic, but
nothing makes the pair atomic, so we model a call as a two-phase machine
and also give the sequential composition. -/

/-- One in-flight `_db_take_over(owner, customer)` call. -/
structure DbCall where
  owner : String
  customer : String
  deriving DecidableEq, Repr

/-- Progress of one `_db_take_over` call: before its `SELECT`, between the
`SELECT` and the upsert, or finished with its return value. -/
inductive DbPhase where
  | beforeSelect
  | beforeUpsert
  | finished (result : Bool)
  deriving DecidableEq, Repr

/-- One atomic statement of `_db_take_over` (`handoff.py`, lines 108-124):
the `SELECT owner ... WHERE customer = %s` check, or the
`INSERT ... ON CONFLICT DO UPDATE` upsert. -/
def dbStep (call : DbCall) (now : Int) (phase : DbPhase) (tbl : Handoffs) :
    DbPhase × Handoffs :=
  match phase with
  | .beforeSelect =>
      match dictLookup tbl call.customer with
      | some row =>
          if row.owner ≠ call.owner then (.finished false, tbl)
          else (.beforeUpsert, tbl)
      | none => (.beforeUpsert, tbl)
  | .beforeUpsert =>
      (.finished true, dictInsert tbl call.customer ⟨call.owner, now, now⟩)
  | .finished r => (.finished r, tbl)

/-- `_db_take_over` run without interference: its two statements
back-to-back. -/
def db_take_over (owner customer : String) (now : Int) (tbl : Handoffs) :
    Bool × Handoffs :=
  match dictLookup tbl customer with
  | some row =>
      if row.owner ≠ owner then (false, tbl)
      else (true, dictInsert tbl customer ⟨owner, now, now⟩)
  | none => (true, dictInsert tbl customer ⟨owner, now, now⟩)

/-- Two concurrent `_db_take_over` calls against an initially empty table:
run the statement-level steps in the order given by `sched`
(`true` advances call `a`, `false` advances call `b`). -/
def dbRace (a b : DbCall) (now : Int) (sched : List Bool) :
    DbPhase × DbPhase × Handoffs :=
  sched.foldl
    (fun st pick =>
      match st with
      | (pa, pb, tbl) =>
        if pick then
          let r := dbStep a now pa tbl
          (r.1, pb, r.2)
        else
          let r := dbStep b now pb tbl
          (pa, r.1, r.2))
    (.beforeSelect, .beforeSelect, [])

/-- `_db_cleanup_expired` (`handoff.py`, lines 179-190):
`DELETE FROM handoffs WHERE last_activity < cutoff RETURNING customer,
owner` — a single set-based statement, strict comparison. -/
def db_cleanup_expired (cutoff : Int) (tbl : Handoffs) :
    List (String × String) × Handoffs :=
  ((tbl.filter (fun p => decide (p.2.last_activity < cutoff))).map
      (fun p => (p.1, p.2.owner)),
   tbl.filter (fun p => decide (¬ p.2.last_activity < cutoff)))

/-! ### Owner command handling (`app.py`: `_TAKE_RE`, `_handle_owner_message`) -/

/-- The `\s+` part of `_TAKE_RE`: one mandatory whitespace character, then
any further whitespace. -/
def dropSpaces1 : List Char → Option (List Char)
  | [] => none
  | c :: rest =>
      if c.isWhitespace then some (rest.dropWhile Char.isWhitespace) else none

/-- `_TAKE_RE = re.compile(r"^TAKE\s+\+?(\d+)$", re.IGNORECASE)` applied by
`.match` to the (already stripped) text: the four letters `TAKE` in either
case, whitespace, an optional plus, then one or more digits up to the end;
returns the captured digits. -/
def takeMatch (s : String) : Option String :=
  match s.data with
  | t :: a :: k :: e :: rest =>
      if t.toUpper = 'T' ∧ a.toUpper = 'A' ∧ k.toUpper = 'K' ∧ e.toUpper = 'E' then
        match dropSpaces1 rest with
        | some rest₁ =>
            let digits := match rest₁ with
              | '+' :: r => r
              | r => r
            if digits ≠ [] ∧ digits.all Char.isDigit then
              some (String.mk digits)
            else none
        | none => none
      else none
  | _ => none

/-- `_normalize_customer_number` (`app.py`, lines 102-104). -/
def _normalize_customer_number (rawDigits : String) : String :=
  "whatsapp:+" ++ rawDigits

/-- Observable outcome of `_handle_owner_message`: which message was sent to
whom / which branch ran. -/
inductive OwnerAction where
  | listReply (body : String)
  | takeSuccess (customer : String)
  | takeRejected (customer : String)
  | doneReleased (customer : String)
  | forwarded (customer : String) (text : String)
  | help
  deriving DecidableEq, Repr

/-- `_handle_owner_message` (`app.py`, lines 107-167), acting on the
in-memory registry backing: LIST, then TAKE (releasing a currently held
claim first), then — when the owner holds a claim — DONE or verbatim
forwarding, else the command help. -/
def _handle_owner_message (owner text : String) (now : Int) (hs : Handoffs) :
    OwnerAction × Handoffs :=
  let upper := pyUpper (pyStrip text)
  if upper = "LIST" then
    let active := mem_list_active hs
    if active.isEmpty then (.listReply "No active hand-offs.", hs)
    else
      (.listReply (String.intercalate "\n"
        ("Active hand-offs:" :: active.map
          (fun p => "- " ++ p.1 ++ " (owner: " ++ p.2 ++ ")"))), hs)
  else
    match takeMatch (pyStrip text) with
    | some digits =>
        let customer := _normalize_customer_number digits
        let hs₁ := match mem_get_owner_handoff owner hs with
          | some current => mem_release current hs
          | none => hs
        let r := mem_take_over owner customer now hs₁
        (if r.1 then .takeSuccess customer else .takeRejected customer, r.2)
    | none =>
        match mem_get_owner_handoff owner hs with
        | some currentCustomer =>
            if upper = "DONE" then
              (.doneReleased currentCustomer, mem_release currentCustomer hs)
            else
              (.forwarded currentCustomer text,
               mem_touch_activity currentCustomer now hs)
        | none => (.help, hs)

/-! ### Webhook routing (`app.py`: `webhook`, lines 288-341) -/

/-- Routing decision recorded by `webhook`; a forward to the claiming
operator carries the body actually sent. -/
inductive WebhookOutcome where
  | noContent
  | ownerDispatched
  | forwardedToOwner (owner : String) (body : String)
  | buffered
  deriving DecidableEq, Repr

/-- The two pieces of process-wide shared state `webhook` can touch. -/
structure SystemState where
  buffer : Buffer
  handoffs : Handoffs
  deriving DecidableEq, Repr

/-- `webhook` after transport validation: strip the body (empty → 204 and
no state change), dispatch recognized operators, forward claimed customers
to their owner (refreshing activity) with the body
`f"[{user_number}]\n{user_text}"` of `app.py` line 319, else enqueue into
the buffer.  Returns (outcome, HTTP status) and the new state. -/
def webhook (owners : List String) (sender rawBody : String) (now : Int)
    (st : SystemState) : (WebhookOutcome × Nat) × SystemState :=
  let userText := pyStrip rawBody
  if userText = "" then ((.noContent, 204), st)
  else if owners.contains sender then ((.ownerDispatched, 200), st)
  else
    match mem_get_active_handoff sender st.handoffs with
    | some h =>
        ((.forwardedToOwner h.owner ("[" ++ sender ++ "]\n" ++ userText), 200),
         { st with handoffs := mem_touch_activity sender now st.handoffs })
    | none =>
        ((.buffered, 200),
         { st with buffer := enqueue st.buffer sender userText now })

/-! ### Per-sender processing (`app.py`: `_process_and_reply`) -/

/-- A Python call that either returns normally or raises. -/
inductive PyResult (α : Type) where
  | ok (val : α)
  | exc (msg : String)
  deriving DecidableEq, Repr

/-- Sequencing of fallible calls: an exception aborts the rest. -/
def PyResult.bind {α β : Type} : PyResult α → (α → PyResult β) → PyResult β
  | .ok a, f => f a
  | .exc m, _ => .exc m

/-- One reply item from `handle_message`: `{"body", "image", "video"}`. -/
structure ReplyItem where
  body : String
  image : String
  video : String

/-- The collaborators `_process_and_reply` calls, each of which may raise:
`check_and_increment`, `handle_message`, `_send_whatsapp_message`,
`_wait_for_message_delivered`, `_notify_owners_of_escalation`. -/
structure Collaborators where
  checkAndIncrement : String → PyResult Bool
  handleMessage : String → String → PyResult (List ReplyItem)
  sendMessage : String → String → Option String → PyResult String
  waitDelivered : String → PyResult Unit
  notifyOwners : String → String → PyResult Unit

/-- Whether `needle` occurs at the head of the second list. -/
def matchesAt : List Char → List Char → Bool
  | [], _ => true
  | _ :: _, [] => false
  | a :: as, b :: bs => a = b && matchesAt as bs

/-- Python's `needle in haystack` substring test. -/
def hasSubstring (needle : List Char) : List Char → Bool
  | [] => matchesAt needle []
  | c :: rest => matchesAt needle (c :: rest) || hasSubstring needle rest

/-- `ESCALATION_PHRASE in body`. -/
def containsPhrase (phrase body : String) : Bool :=
  hasSubstring phrase.data body.data

/-- `ESCALATION_PHRASE` (`app.py`, line 46). -/
def ESCALATION_PHRASE : String :=
  "Let me get a team member to help you with that."

/-- The send branch of the reply loop for one item: video first (body
defaulted to a space), then image, then plain text (skipped when empty),
each followed by the delivery wait. -/
def sendOne (env : Collaborators) (user : String) (msg : ReplyItem) :
    PyResult Unit :=
  if msg.video ≠ "" then
    (env.sendMessage user (if msg.body = "" then " " else msg.body)
      (some msg.video)).bind (fun sid => env.waitDelivered sid)
  else if msg.image ≠ "" then
    (env.sendMessage user msg.body (some msg.image)).bind
      (fun sid => env.waitDelivered sid)
  else if msg.body ≠ "" then
    (env.sendMessage user msg.body none).bind
      (fun sid => env.waitDelivered sid)
  else .ok ()

/-- The whole reply loop. -/
def sendAll (env : Collaborators) (user : String) :
    List ReplyItem → PyResult Unit
  | [] => .ok ()
  | m :: rest => (sendOne env user m).bind (fun _ => sendAll env user rest)

/-- The body of the `try:` block of `_process_and_reply` (`app.py`, lines
190-225): rate-limit check (limit reached → limit notice and return),
responder call, reply loop, escalation notification. -/
def processBody (env : Collaborators) (user combined : String) :
    PyResult Unit :=
  (env.checkAndIncrement user).bind (fun allowed =>
    if allowed = false then
      (env.sendMessage user
        "You've reached your daily message limit. Please try again tomorrow."
        none).bind (fun _ => .ok ())
    else
      (env.handleMessage user combined).bind (fun messages =>
        (sendAll env user messages).bind (fun _ =>
          if messages.any (fun m => containsPhrase ESCALATION_PHRASE m.body)
          then env.notifyOwners user combined
          else .ok ())))

/-- `_process_and_reply` (`app.py`, lines 188-228): the whole body runs
inside `try: ... except Exception: logger.exception(...)`, so every raise
is swallowed and the routine returns normally. -/
def _process_and_reply (env : Collaborators) (user combined : String) :
    PyResult Unit :=
  match processBody env user combined with
  | .ok _ => .ok ()
  | .exc _ => .ok ()

/-! ### Dictionary lemmas -/

theorem dictLookup_insert_self {α : Type} (l : List (String × α)) (k : String)
    (v : α) : dictLookup (dictInsert l k v) k = some v := by
  induction l with
  | nil => simp [dictInsert, dictLookup]
  | cons p rest ih =>
      obtain ⟨k₁, v₁⟩ := p
      by_cases h : k₁ = k
      · simp [dictInsert, dictLookup, h]
      · simp [dictInsert, dictLookup, h, ih]

theorem dictLookup_insert_ne {α : Type} (l : List (String × α)) (k k' : String)
    (v : α) (h : k ≠ k') :
    dictLookup (dictInsert l k v) k' = dictLookup l k' := by
  induction l with
  | nil => simp [dictInsert, dictLookup, h]
  | cons p rest ih =>
      obtain ⟨k₁, v₁⟩ := p
      by_cases h₁ : k₁ = k
      · subst h₁; simp [dictInsert, dictLookup, h]
      · simp [dictInsert, dictLookup, h₁, ih]

theorem dictLookup_del_self {α : Type} (l : List (String × α)) (k : String) :
    dictLookup (dictDel l k) k = none := by
  induction l with
  | nil => rfl
  | cons p rest ih =>
      obtain ⟨k₁, v₁⟩ := p
      simp only [dictDel, decide_not] at ih ⊢
      by_cases h : k₁ = k
      · simpa [List.filter_cons, h] using ih
      · simp [List.filter_cons, dictLookup, h, ih]

theorem mem_keys_insert {α : Type} (l : List (String × α)) (k : String) (v : α)
    (x : String) :
    x ∈ (dictInsert l k v).map Prod.fst ↔ x = k ∨ x ∈ l.map Prod.fst := by
  induction l with
  | nil => simp [dictInsert]
  | cons p rest ih =>
      obtain ⟨k₁, v₁⟩ := p
      by_cases h : k₁ = k
      · subst h; simp [dictInsert]
      · simp [dictInsert, h, ih]
        tauto

theorem keysNodup_insert {α : Type} {l : List (String × α)} (k : String) (v : α)
    (h : keysNodup l) : keysNodup (dictInsert l k v) := by
  induction l with
  | nil => simp [dictInsert, keysNodup]
  | cons p rest ih =>
      obtain ⟨k₁, v₁⟩ := p
      unfold keysNodup at h ⊢
      simp only [List.map_cons, List.nodup_cons] at h
      by_cases hk : k₁ = k
      · subst hk
        simpa [dictInsert, List.map_cons, List.nodup_cons] using h
      · simp only [dictInsert, hk, if_false, List.map_cons, List.nodup_cons]
        refine ⟨?_, ih h.2⟩
        intro hmem
        rcases (mem_keys_insert rest k v k₁).mp hmem with h₁ | h₁
        · exact hk h₁
        · exact h.1 h₁

theorem keysNodup_inj {α : Type} {l : List (String × α)} (h : keysNodup l)
    {p q : String × α} (hp : p ∈ l) (hq : q ∈ l) (hk : p.1 = q.1) : p = q := by
  induction l with
  | nil => cases hp
  | cons a rest ih =>
      unfold keysNodup at h
      simp only [List.map_cons, List.nodup_cons] at h
      rcases List.mem_cons.mp hp with hp₁ | hp₁ <;>
        rcases List.mem_cons.mp hq with hq₁ | hq₁
      · rw [hp₁, hq₁]
      · exfalso
        apply h.1
        rw [hp₁] at hk
        rw [hk]
        exact List.mem_map_of_mem Prod.fst hq₁
      · exfalso
        apply h.1
        rw [hq₁] at hk
        rw [← hk]
        exact List.mem_map_of_mem Prod.fst hp₁
      · exact ih h.2 hp₁ hq₁

theorem foldl_dictDel_eq_filter {α : Type} :
    ∀ (ks : List String) (l : List (String × α)),
      ks.foldl dictDel l = l.filter (fun p => decide (p.1 ∉ ks))
  | [], l => by simp
  | k :: ks, l => by
      rw [List.foldl_cons, foldl_dictDel_eq_filter ks]
      show (dictDel l k).filter _ = _
      unfold dictDel
      rw [List.filter_filter]
      apply List.filter_congr
      intro p _
      by_cases h₁ : p.1 = k <;> by_cases h₂ : p.1 ∈ ks <;> simp [h₁, h₂]

/-- Deleting exactly the keys of the `f`-entries of a dict removes exactly
the `f`-entries. -/
theorem filter_keys_del {α : Type} {l : List (String × α)}
    (f : String × α → Bool) (h : keysNodup l) :
    l.filter (fun p => decide (p.1 ∉ (l.filter f).map Prod.fst))
      = l.filter (fun p => !(f p)) := by
  apply List.filter_congr
  intro p hp
  by_cases hf : f p = true
  · have hmem : p.1 ∈ (l.filter f).map Prod.fst :=
      List.mem_map_of_mem Prod.fst (List.mem_filter.mpr ⟨hp, hf⟩)
    simp [hmem, hf]
  · have hmem : p.1 ∉ (l.filter f).map Prod.fst := by
      intro hmem
      obtain ⟨q, hq, hqk⟩ := List.mem_map.mp hmem
      obtain ⟨hq₁, hq₂⟩ := List.mem_filter.mp hq
      have hpq : p = q := keysNodup_inj h hp hq₁ hqk.symm
      rw [hpq] at hf
      exact hf hq₂
    simp [hmem, hf]

/-! ### Buffer Store lemmas (claim C1) -/

theorem drainScan_eq (threshold now : Int) :
    ∀ (buf : Buffer) (acc : List (String × String) × List String),
      buf.foldl (drainStep threshold now) acc
        = (acc.1 ++ (buf.filter (fun p => isIdle threshold now p.2)).map
             (fun p => (p.1, joinMessages p.2.messages)),
           acc.2 ++ (buf.filter (fun p => isIdle threshold now p.2)).map
             Prod.fst)
  | [], acc => by simp
  | p :: rest, acc => by
      rw [List.foldl_cons, drainScan_eq threshold now rest]
      by_cases h : isIdle threshold now p.2
      · simp [drainStep, h, List.filter_cons]
      · simp [drainStep, h, List.filter_cons]

theorem enqueueAll_cons (sender : String) (f : String × Int)
    (frags : List (String × Int)) (buf : Buffer) :
    enqueueAll sender (f :: frags) buf
      = enqueueAll sender frags (enqueue buf sender f.1 f.2) := rfl

theorem enqueueAll_lookup (sender : String) :
    ∀ (frags : List (String × Int)) (buf : Buffer) (ms : List String) (t : Int),
      dictLookup buf sender = some ⟨ms, t⟩ →
      dictLookup (enqueueAll sender frags buf) sender
        = some ⟨ms ++ frags.map Prod.fst, (frags.map Prod.snd).getLastD t⟩
  | [], buf, ms, t, h => by simpa [enqueueAll] using h
  | (f, ft) :: frags, buf, ms, t, h => by
      rw [enqueueAll_cons]
      have henq : dictLookup (enqueue buf sender f ft) sender
          = some ⟨ms ++ [f], ft⟩ := by
        unfold enqueue
        rw [h]
        exact dictLookup_insert_self buf sender _
      rw [enqueueAll_lookup sender frags _ _ _ henq]
      simp only [List.map_cons, List.getLastD_cons, List.append_assoc,
        List.singleton_append]

/-- A concrete buffer: sender `a` last heard from at 5, sender `b` at 35. -/
def demoBuf : Buffer := [("a", ⟨["m1", "m2"], 5⟩), ("b", ⟨["m3"], 35⟩)]

/-- C1: a drain pass removes and returns exactly the entries with
`now - last_received >= idle_threshold`, each as its fragments joined by a
newline in arrival order, and leaves every not-yet-idle entry unchanged in
the buffer; an entry built by one sender's enqueues holds that sender's
fragments in arrival order with the last fragment's timestamp. -/
theorem drain_ready_spec (threshold now : Int) (buf : Buffer)
    (hnd : keysNodup buf) :
    (drain_ready threshold now buf).1
      = (buf.filter (fun p => isIdle threshold now p.2)).map
          (fun p => (p.1, joinMessages p.2.messages))
  ∧ (drain_ready threshold now buf).2
      = buf.filter (fun p => !(isIdle threshold now p.2))
  ∧ ∀ (sender fragment : String) (t : Int) (frags : List (String × Int)),
      dictLookup (enqueueAll sender ((fragment, t) :: frags) []) sender
        = some ⟨fragment :: frags.map Prod.fst,
                (frags.map Prod.snd).getLastD t⟩ := by
  refine ⟨?_, ?_, ?_⟩
  · simp [drain_ready, drainScan_eq threshold now buf]
  · simp only [drain_ready, drainScan_eq threshold now buf, List.nil_append]
    rw [foldl_dictDel_eq_filter]
    exact filter_keys_del _ hnd
  · intro sender fragment t frags
    rw [enqueueAll_cons]
    have h₀ : dictLookup (enqueue [] sender fragment t) sender
        = some ⟨[fragment], t⟩ := by
      unfold enqueue
      simp [dictLookup, dictInsert]
    rw [enqueueAll_lookup sender frags _ _ _ h₀]
    simp

/-- Witness for C1: draining `demoBuf` at `now = 40` with threshold 30
returns sender `a` with `"m1\nm2"` and keeps sender `b` untouched; two
enqueued fragments appear joined in arrival order. -/
theorem drain_ready_spec_witness :
    keysNodup demoBuf
  ∧ (drain_ready 30 40 demoBuf).1 = [("a", "m1\nm2")]
  ∧ (drain_ready 30 40 demoBuf).2 = [("b", ⟨["m3"], 35⟩)]
  ∧ dictLookup (enqueueAll "s" [("f1", 0), ("f2", 3)] []) "s"
      = some ⟨["f1", "f2"], 3⟩ := by
  have h := drain_ready_spec 30 40 demoBuf (by decide)
  refine ⟨by decide, h.1.trans (by decide), h.2.1.trans (by decide), ?_⟩
  exact (h.2.2 "s" "f1" 0 [("f2", 3)]).trans (by decide)

/-! ### Hand-off Registry lemmas and claims C2, C5, C7 -/

/-- When the customer is unclaimed or already claimed by this operator,
`_mem_take_over` succeeds and overwrites the record with fresh
timestamps. -/
theorem mem_take_over_same (A customer : String) (t : Int) (hs : Handoffs)
    (hfree : ∀ r, dictLookup hs customer = some r → r.owner = A) :
    mem_take_over A customer t hs = (true, dictInsert hs customer ⟨A, t, t⟩) := by
  unfold mem_take_over
  cases hlk : dictLookup hs customer with
  | none => rfl
  | some r =>
      have hr := hfree r hlk
      simp [hr]

/-- C2: if customer C is held by operator A, `take_over(B, C)` with B ≠ A
returns false, changes nothing, and `get_active(C)` still shows A's record
with the same timestamps — on the in-memory backing and on the durable
backing run without interference. -/
theorem take_over_conflict_rejected (hs : Handoffs) (A B customer : String)
    (rec : HandoffRecord) (now : Int)
    (hrec : dictLookup hs customer = some rec) (hA : rec.owner = A)
    (hne : B ≠ A) :
    mem_take_over B customer now hs = (false, hs)
  ∧ mem_get_active_handoff customer (mem_take_over B customer now hs).2
      = some rec
  ∧ db_take_over B customer now hs = (false, hs) := by
  have hcond : rec.owner ≠ B := by
    rw [hA]
    exact fun h => hne h.symm
  have hmem : mem_take_over B customer now hs = (false, hs) := by
    simp only [mem_take_over, hrec, if_pos hcond]
  refine ⟨hmem, ?_, ?_⟩
  · rw [hmem]
    exact hrec
  · simp only [db_take_over, hrec, if_pos hcond]

/-- Witness for C2: operator B cannot take customer c from operator A. -/
theorem take_over_conflict_rejected_witness :
    mem_take_over "B" "c" 9 [("c", ⟨"A", 1, 2⟩)] = (false, [("c", ⟨"A", 1, 2⟩)])
  ∧ mem_get_active_handoff "c"
      (mem_take_over "B" "c" 9 [("c", ⟨"A", 1, 2⟩)]).2 = some ⟨"A", 1, 2⟩
  ∧ db_take_over "B" "c" 9 [("c", ⟨"A", 1, 2⟩)] = (false, [("c", ⟨"A", 1, 2⟩)]) :=
  take_over_conflict_rejected [("c", ⟨"A", 1, 2⟩)] "A" "B" "c" ⟨"A", 1, 2⟩ 9
    (by decide) rfl (by decide)

/-- C5: `take_over(A, C)` twice in a row (from any state where C is not
held by a different operator): both calls return true, afterwards C has
exactly one record, owned by A, with both timestamps refreshed to the
second call's time. -/
theorem take_over_idempotent_reclaim (A customer : String) (t₁ t₂ : Int)
    (hs : Handoffs) (hnd : keysNodup hs)
    (hfree : ∀ r, dictLookup hs customer = some r → r.owner = A) :
    (mem_take_over A customer t₁ hs).1 = true
  ∧ (mem_take_over A customer t₂ (mem_take_over A customer t₁ hs).2).1 = true
  ∧ dictLookup
      (mem_take_over A customer t₂ (mem_take_over A customer t₁ hs).2).2
      customer = some ⟨A, t₂, t₂⟩
  ∧ keysNodup
      (mem_take_over A customer t₂ (mem_take_over A customer t₁ hs).2).2 := by
  have h₁ := mem_take_over_same A customer t₁ hs hfree
  have hl₁ : dictLookup (dictInsert hs customer ⟨A, t₁, t₁⟩) customer
      = some ⟨A, t₁, t₁⟩ := dictLookup_insert_self hs customer _
  have hfree₂ : ∀ r,
      dictLookup (dictInsert hs customer ⟨A, t₁, t₁⟩) customer = some r →
      r.owner = A := by
    intro r hr
    rw [hl₁] at hr
    cases hr
    rfl
  have h₂ := mem_take_over_same A customer t₂ _ hfree₂
  refine ⟨by rw [h₁], ?_, ?_, ?_⟩
  · rw [h₁]
    simp only [h₂]
  · rw [h₁]
    simp only [h₂]
    exact dictLookup_insert_self _ customer _
  · rw [h₁]
    simp only [h₂]
    exact keysNodup_insert customer _ (keysNodup_insert customer _ hnd)

/-- Witness for C5 starting from the empty registry. -/
theorem take_over_idempotent_reclaim_witness :
    (mem_take_over "A" "c" 1 ([] : Handoffs)).1 = true
  ∧ (mem_take_over "A" "c" 2 (mem_take_over "A" "c" 1 ([] : Handoffs)).2).1
      = true
  ∧ dictLookup
      (mem_take_over "A" "c" 2 (mem_take_over "A" "c" 1 ([] : Handoffs)).2).2
      "c" = some ⟨"A", 2, 2⟩
  ∧ keysNodup
      (mem_take_over "A" "c" 2 (mem_take_over "A" "c" 1 ([] : Handoffs)).2).2 :=
  take_over_idempotent_reclaim "A" "c" 1 2 [] (by decide)
    (by intro r h; simp [dictLookup] at h)

/-- C7: an operator holding customer c₁ who issues a TAKE naming a
different customer: the handler releases c₁ first and then attempts the
new take_over, so afterwards the old claim on c₁ is gone whether or not
the new claim succeeded. -/
theorem take_switch_releases_old_claim (owner text digits c₁ : String)
    (now : Int) (hs : Handoffs)
    (hnl : pyUpper (pyStrip text) ≠ "LIST")
    (htm : takeMatch (pyStrip text) = some digits)
    (hcur : mem_get_owner_handoff owner hs = some c₁)
    (hne : c₁ ≠ _normalize_customer_number digits) :
    dictLookup (_handle_owner_message owner text now hs).2 c₁ = none := by
  simp only [_handle_owner_message, htm, hcur]
  rw [if_neg hnl]
  cases hlk : dictLookup (mem_release c₁ hs)
      (_normalize_customer_number digits) with
  | none =>
      simp only [mem_take_over, hlk]
      rw [dictLookup_insert_ne _ _ _ _ (fun h => hne h.symm)]
      exact dictLookup_del_self hs c₁
  | some r =>
      by_cases hro : r.owner = owner
      · simp only [mem_take_over, hlk, hro, ne_eq, not_true_eq_false, if_false]
        rw [dictLookup_insert_ne _ _ _ _ (fun h => hne h.symm)]
        exact dictLookup_del_self hs c₁
      · simp only [mem_take_over, hlk, if_pos hro]
        exact dictLookup_del_self hs c₁

/-- Witness for C7: owner `ow` holds `whatsapp:+99` and sends
`TAKE +123`. -/
theorem take_switch_releases_old_claim_witness :
    pyUpper (pyStrip "TAKE +123") ≠ "LIST"
  ∧ takeMatch (pyStrip "TAKE +123") = some "123"
  ∧ mem_get_owner_handoff "ow" [("whatsapp:+99", ⟨"ow", 0, 0⟩)]
      = some "whatsapp:+99"
  ∧ dictLookup
      (_handle_owner_message "ow" "TAKE +123" 5
        [("whatsapp:+99", ⟨"ow", 0, 0⟩)]).2 "whatsapp:+99" = none :=
  ⟨by decide, by decide, by decide,
   take_switch_releases_old_claim "ow" "TAKE +123" "123" "whatsapp:+99" 5
     [("whatsapp:+99", ⟨"ow", 0, 0⟩)] (by decide) (by decide) (by decide)
     (by decide)⟩

/-! ### Expiry sweep: claim C4 -/

theorem cleanupScan_eq (timeout now : Int) :
    ∀ (hs : Handoffs) (acc : List (String × String) × Handoffs),
      hs.foldl (cleanupStep timeout now) acc
        = (acc.1 ++ (hs.filter (fun p => isExpired timeout now p.2)).map
             (fun p => (p.1, p.2.owner)),
           ((hs.filter (fun p => isExpired timeout now p.2)).map
             Prod.fst).foldl dictDel acc.2)
  | [], acc => by simp
  | p :: rest, acc => by
      rw [List.foldl_cons, cleanupScan_eq timeout now rest]
      by_cases h : isExpired timeout now p.2
      · simp [cleanupStep, h, List.filter_cons, List.foldl_cons]
      · simp [cleanupStep, h, List.filter_cons]

/-- C4 counterexample: with timeout T = 30 at now = 100, a record whose
last-activity is exactly 70 = now − T does not predate now − T, yet the
in-memory sweep removes and returns it (its condition is `>=`, not `>`),
so the claim's "strictly older" / "at or after now − T remains" fails. -/
theorem cleanup_boundary_counterexample :
    ¬ ((70 : Int) < 100 - 30)
  ∧ (mem_cleanup_expired 30 100 [("c", ⟨"A", 0, 70⟩)]).1 = [("c", "A")]
  ∧ (mem_cleanup_expired 30 100 [("c", ⟨"A", 0, 70⟩)]).2 = [] := by decide

/-- C4 (amended): the in-memory sweep removes and returns exactly the
records with `now - last_activity >= timeout` — boundary inclusive — and
records with `now - last_activity < timeout` remain unchanged; the durable
sweep's single DELETE removes exactly the records with `last_activity`
strictly before the cutoff. -/
theorem cleanup_expired_spec (timeout now : Int) (hs : Handoffs)
    (hnd : keysNodup hs) :
    (mem_cleanup_expired timeout now hs).1
      = (hs.filter (fun p => isExpired timeout now p.2)).map
          (fun p => (p.1, p.2.owner))
  ∧ (mem_cleanup_expired timeout now hs).2
      = hs.filter (fun p => !(isExpired timeout now p.2))
  ∧ ∀ (cutoff : Int) (tbl : Handoffs),
      (db_cleanup_expired cutoff tbl).1
        = (tbl.filter (fun p => decide (p.2.last_activity < cutoff))).map
            (fun p => (p.1, p.2.owner))
    ∧ (db_cleanup_expired cutoff tbl).2
        = tbl.filter (fun p => !(decide (p.2.last_activity < cutoff))) := by
  refine ⟨?_, ?_, ?_⟩
  · simp [mem_cleanup_expired, cleanupScan_eq timeout now hs]
  · simp only [mem_cleanup_expired, cleanupScan_eq timeout now hs,
      List.nil_append]
    rw [foldl_dictDel_eq_filter]
    exact filter_keys_del _ hnd
  · intro cutoff tbl
    refine ⟨rfl, ?_⟩
    show tbl.filter (fun p => decide (¬ p.2.last_activity < cutoff))
        = tbl.filter (fun p => !(decide (p.2.last_activity < cutoff)))
    apply List.filter_congr
    intro p _
    by_cases hlt : p.2.last_activity < cutoff <;> simp [hlt]

/-- A concrete registry: customer c last active at 70, customer d at 80. -/
def demoHs : Handoffs := [("c", ⟨"A", 0, 70⟩), ("d", ⟨"B", 0, 80⟩)]

/-- Witness for C4 (amended): at now = 100 with timeout 30 the in-memory
sweep removes c (exactly at the boundary) and keeps d; the durable sweep
with cutoff 70 keeps both (strict comparison). -/
theorem cleanup_expired_spec_witness :
    keysNodup demoHs
  ∧ (mem_cleanup_expired 30 100 demoHs).1 = [("c", "A")]
  ∧ (mem_cleanup_expired 30 100 demoHs).2 = [("d", ⟨"B", 0, 80⟩)]
  ∧ (db_cleanup_expired 70 demoHs).1 = []
  ∧ (db_cleanup_expired 70 demoHs).2 = demoHs := by
  have h := cleanup_expired_spec 30 100 demoHs (by decide)
  refine ⟨by decide, h.1.trans (by decide), h.2.1.trans (by decide), ?_, ?_⟩
  · exact ((h.2.2 70 demoHs).1).trans (by decide)
  · exact ((h.2.2 70 demoHs).2).trans (by decide)

/-! ### The durable backing's take_over race: claim C3 -/

/-- C3: two `_db_take_over` calls by distinct operators A and B for the
same unclaimed customer, interleaved select-A, select-B, upsert-A,
upsert-B: BOTH calls finish with true and the table ends owned by B — the
durable backing's check-and-set is two separate statements and is not
atomic, so the "exactly one of N concurrent calls succeeds" guarantee
fails there (the in-memory backing holds its whole call under one lock). -/
theorem db_take_over_race_both_succeed :
    dbRace ⟨"A", "C"⟩ ⟨"B", "C"⟩ 7 [true, false, true, false]
      = (.finished true, .finished true, [("C", ⟨"B", 7, 7⟩)]) := by decide

/-! ### Routing policy: claims C6, C10 -/

/-- C6 counterexample: customer `cust`, claimed by operator `op`, sends
`hi`; the body forwarded to the operator is `"[cust]\nhi"` — the message
text prefixed with a sender tag — not the message text `hi` itself, so the
forward is not verbatim as the claim states. -/
theorem forward_not_verbatim_counterexample :
    (webhook ["op"] "cust" "hi" 3 ⟨[], [("cust", ⟨"op", 0, 0⟩)]⟩).1
      = (.forwardedToOwner "op" "[cust]\nhi", 200)
  ∧ "[cust]\nhi" ≠ ("hi" : String) := by decide

/-- C6 (amended): for a non-blank inbound message, `webhook` routes by
priority: a recognized operator identity is dispatched as an operator
message with no state change (never buffered); otherwise a sender with an
active hand-off is forwarded to the claiming operator — the body sent is a
`[sender]` tag, a newline, then the message text verbatim — with activity
refreshed and the buffer bypassed; otherwise the message is enqueued into
the buffer with the registry untouched. -/
theorem webhook_routing_priority (owners : List String)
    (sender rawBody : String) (now : Int) (st : SystemState)
    (hne : pyStrip rawBody ≠ "") :
    (owners.contains sender = true →
       webhook owners sender rawBody now st = ((.ownerDispatched, 200), st))
  ∧ (owners.contains sender = false →
       ∀ h, mem_get_active_handoff sender st.handoffs = some h →
         webhook owners sender rawBody now st
           = ((.forwardedToOwner h.owner
                 ("[" ++ sender ++ "]\n" ++ pyStrip rawBody), 200),
              { st with handoffs := mem_touch_activity sender now st.handoffs }))
  ∧ (owners.contains sender = false →
       mem_get_active_handoff sender st.handoffs = none →
         webhook owners sender rawBody now st
           = ((.buffered, 200),
              { st with buffer := enqueue st.buffer sender (pyStrip rawBody) now })) := by
  refine ⟨?_, ?_, ?_⟩
  · intro h₁
    have h₁' : sender ∈ owners := by simpa using h₁
    simp [webhook, hne, h₁']
  · intro h₁ h h₂
    have h₁' : sender ∉ owners := by simpa using h₁
    simp [webhook, hne, h₁', h₂]
  · intro h₁ h₂
    have h₁' : sender ∉ owners := by simpa using h₁
    simp [webhook, hne, h₁', h₂]

/-- Witness for C6 (amended): a claimed customer's message is forwarded to
the claiming operator with the sender tag and the text verbatim after it,
activity refreshed and the buffer bypassed; an unclaimed sender's message
lands in the buffer with the registry untouched. -/
theorem webhook_routing_priority_witness :
    pyStrip "hi" ≠ ""
  ∧ webhook ["op"] "cust" "hi" 3 ⟨[], [("cust", ⟨"op", 0, 0⟩)]⟩
      = ((.forwardedToOwner "op" "[cust]\nhi", 200),
         ⟨[], [("cust", ⟨"op", 0, 3⟩)]⟩)
  ∧ webhook ["op"] "other" "hi" 3 ⟨[], []⟩
      = ((.buffered, 200), ⟨[("other", ⟨["hi"], 3⟩)], []⟩) := by
  have h := webhook_routing_priority ["op"] "cust" "hi" 3
    ⟨[], [("cust", ⟨"op", 0, 0⟩)]⟩ (by decide)
  have h₂ := webhook_routing_priority ["op"] "other" "hi" 3 ⟨[], []⟩
    (by decide)
  refine ⟨by decide, ?_, ?_⟩
  · exact (h.2.1 (by decide) ⟨"op", 0, 0⟩ (by decide)).trans (by decide)
  · exact (h₂.2.2 (by decide) (by decide)).trans (by decide)

/-- C10: a webhook request whose message body is empty or whitespace-only
after stripping returns HTTP 204 and changes no state: the buffer and the
hand-off registry are exactly as before and nothing is dispatched. -/
theorem webhook_blank_body_noop (owners : List String)
    (sender rawBody : String) (now : Int) (st : SystemState)
    (hblank : pyStrip rawBody = "") :
    webhook owners sender rawBody now st = ((.noContent, 204), st) := by
  simp [webhook, hblank]

/-- Witness for C10 on a whitespace-only body and a non-trivial state. -/
theorem webhook_blank_body_noop_witness :
    pyStrip "  \n " = ""
  ∧ webhook ["op"] "cust" "  \n " 9 ⟨demoBuf, demoHs⟩
      = ((.noContent, 204), ⟨demoBuf, demoHs⟩) :=
  ⟨by decide,
   webhook_blank_body_noop ["op"] "cust" "  \n " 9 ⟨demoBuf, demoHs⟩
     (by decide)⟩

/-! ### Malformed operator commands: claim C8 -/

/-- C8 counterexample: operator `own` holds a claim on `cust`; the
malformed text `hello` (not LIST, TAKE or DONE) is forwarded verbatim to
the claimed customer — the operator does not receive the help message. -/
theorem owner_malformed_forwarded_counterexample :
    takeMatch (pyStrip "hello") = none
  ∧ pyUpper (pyStrip "hello") ≠ "LIST"
  ∧ pyUpper (pyStrip "hello") ≠ "DONE"
  ∧ (_handle_owner_message "own" "hello" 5 [("cust", ⟨"own", 0, 0⟩)]).1
      = .forwarded "cust" "hello"
  ∧ (_handle_owner_message "own" "hello" 5 [("cust", ⟨"own", 0, 0⟩)]).1
      ≠ .help := by decide

/-- C8 (amended): an operator's message that is not LIST and not a valid
TAKE command receives the help message enumerating the commands when the
operator holds no active claim; with an active claim, such text is instead
forwarded to the claimed customer (or releases it, for DONE). -/
theorem owner_malformed_help_when_unclaimed (owner text : String) (now : Int)
    (hs : Handoffs)
    (hnl : pyUpper (pyStrip text) ≠ "LIST")
    (htm : takeMatch (pyStrip text) = none)
    (hnc : mem_get_owner_handoff owner hs = none) :
    _handle_owner_message owner text now hs = (.help, hs) := by
  simp only [_handle_owner_message, htm, hnc]
  rw [if_neg hnl]

/-- Witness for C8 (amended): `wat` from an operator with no claim. -/
theorem owner_malformed_help_when_unclaimed_witness :
    pyUpper (pyStrip "wat") ≠ "LIST"
  ∧ takeMatch (pyStrip "wat") = none
  ∧ mem_get_owner_handoff "op" ([] : Handoffs) = none
  ∧ _handle_owner_message "op" "wat" 1 [] = (.help, []) :=
  ⟨by decide, by decide, by decide,
   owner_malformed_help_when_unclaimed "op" "wat" 1 [] (by decide) (by decide)
     (by decide)⟩

/-! ### Per-sender failure isolation: claim C9 -/

/-- C9: `_process_and_reply` wraps its whole body in a catch-all handler,
so whatever the rate limiter, responder or send path do — return or
raise — the routine returns normally and never propagates an exception to
the lifecycle worker or to other senders' tasks. -/
theorem process_and_reply_no_propagation (env : Collaborators)
    (user combined : String) :
    _process_and_reply env user combined = .ok () := by
  unfold _process_and_reply
  cases processBody env user combined <;> rfl

end GemsChatbot
